import Mathlib

set_option maxRecDepth 100000

/-!
Shallow embedding of src/main.c from cmark-lua: the command-line driver
that parses arguments, feeds input bytes into the cmark streaming parser,
runs a chain of Lua filter scripts over the parsed document tree, and
renders the tree in the selected output format.

The external collaborators (the cmark parse/render engine and the Lua
runtime) are modelled parametrically: file contents, filter behaviours and
renderer functions are inputs of the model, and the run is recorded as a
trace of observable events (parser feeds, tree creation and destruction,
runtime creation and release, filter invocations, render calls, stdout and
stderr writes) together with the process exit code.
-/

/-- Output formats, from the `writer_format` enum in main.c. -/
inductive writer_format
  | FORMAT_NONE
  | FORMAT_HTML
  | FORMAT_XML
  | FORMAT_MAN
  | FORMAT_COMMONMARK
  | FORMAT_LATEX
deriving DecidableEq

/-- `CMARK_OPT_DEFAULT` is 0 in the cmark header. -/
def CMARK_OPT_DEFAULT : Nat := 0

/-- Option bit, value from the external cmark header; the exact value is
immaterial to every claim, only that it is or-ed into the mask. -/
def CMARK_OPT_SOURCEPOS : Nat := 2

/-- Option bit from the external cmark header. -/
def CMARK_OPT_HARDBREAKS : Nat := 4

/-- Option bit from the external cmark header. -/
def CMARK_OPT_SAFE : Nat := 8

/-- Option bit from the external cmark header. -/
def CMARK_OPT_NORMALIZE : Nat := 256

/-- Option bit from the external cmark header. -/
def CMARK_OPT_VALIDATE_UTF8 : Nat := 512

/-- Option bit from the external cmark header. -/
def CMARK_OPT_SMART : Nat := 1024

/-- Version string from the external config header; value immaterial. -/
def CMARK_VERSION_STRING : String := ""

/-- Text printed by `print_usage` in main.c. -/
def usageText : String :=
  "Usage:   cmark [FILE*]\nOptions:\n" ++
  "  --to, -t FORMAT  Specify output format (html, xml, man, commonmark, latex)\n" ++
  "  --width WIDTH    Specify wrap width (default 0 = nowrap)\n" ++
  "  --sourcepos      Include source position attribute\n" ++
  "  --hardbreaks     Treat newlines as hard line breaks\n" ++
  "  --safe           Suppress raw HTML and dangerous URLs\n" ++
  "  --smart          Use smart punctuation\n" ++
  "  --normalize      Consolidate adjacent text nodes\n" ++
  "  --help, -h       Print usage information\n" ++
  "  --version        Print version\n"

/-- Text printed for `--version` in main.c. -/
def versionText : String :=
  "cmark " ++ CMARK_VERSION_STRING ++
  " - CommonMark converter\n(C) 2014, 2015 John MacFarlane\n"

/-- C `isspace` in the default locale. -/
def isCSpace (c : Char) : Bool :=
  c == ' ' || c == '\t' || c == '\n' || c == '\x0b' || c == '\x0c' || c == '\r'

/-- Numeric value of a nonempty decimal digit string. -/
def digitsVal (ds : List Char) : Nat :=
  ds.foldl (fun acc c => acc * 10 + (c.toNat - 48)) 0

/-- C `strtol(str, &endptr, 10)`: skip whitespace, optional sign, digits.
Returns the parsed value and the unconsumed suffix (what `endptr` points
at).  When no digits are consumed, no conversion is performed and the
suffix is the whole input, as in C.  The `long`-range clamping and the
`(int)` cast in main.c are not modelled; no claim depends on values at
that magnitude. -/
def strtol10 (str : String) : Int × String :=
  let afterWs := str.data.dropWhile isCSpace
  let sign : Int :=
    match afterWs with
    | c :: _ => if c = '-' then -1 else 1
    | [] => 1
  let afterSign :=
    match afterWs with
    | c :: t => if c = '-' ∨ c = '+' then t else afterWs
    | [] => []
  let ds := afterSign.takeWhile (fun c => c.isDigit)
  let rest := afterSign.dropWhile (fun c => c.isDigit)
  if ds = [] then (0, str)
  else (sign * (digitsVal ds : Int), String.mk rest)

/-- Sources a chunk of input bytes can be fed from. -/
inductive Src
  | file (path : String)
  | stdin
deriving DecidableEq

/-- Arguments passed to a Lua filter invocation: the document-tree handle
pushed by `push_cmark_node`, or a string pushed by `lua_pushstring`. -/
inductive FilterArg
  | docHandle
  | str (s : String)
deriving DecidableEq

/-- Observable events of a run of main. -/
inductive Event
  | parserNew (options : Nat)
  | feed (src : Src) (chunk : List Nat)
  | treeCreated
  | parserFree
  | runtimeCreated (i : Nat)
  | filterInvoked (i : Nat) (args : List FilterArg)
  | runtimeReleased (i : Nat)
  | renderCall (writer : writer_format) (options : Nat) (width : Int)
  | out (s : String)
  | err (s : String)
  | treeDestroyed
deriving DecidableEq

/-- The mutable locals of main.c's argument loop (lines 83–167): options
mask, wrap width, writer enum, format string, and the positional file and
`--lua` file lists in order of appearance.  The uninitialized counter
`numfps` is modelled separately (see `mainModel`). -/
structure ParseState where
  options : Nat
  width : Int
  writer : writer_format
  format : String
  files : List String
  luafiles : List String
deriving DecidableEq

/-- Result of the argument loop: either an early process exit (with the
writes it performed) or the final state. -/
inductive ParseResult
  | exit (code : Nat) (events : List Event)
  | done (s : ParseState)
deriving DecidableEq

/-- Initial values of main.c's locals: width 0, writer FORMAT_HTML,
options CMARK_OPT_DEFAULT, format "html", empty file lists. -/
def initState : ParseState :=
  { options := CMARK_OPT_DEFAULT, width := 0, writer := .FORMAT_HTML,
    format := "html", files := [], luafiles := [] }

/-- The argument loop of main.c (lines 98–167), one branch per `strcmp`
chain arm, in source order.  `--lua`, `--width` and `-t`/`--to` consume
the following argument; a leading `-` otherwise prints usage to stdout
and exits 1; anything else is a positional file argument. -/
def parseArgs (s : ParseState) : List String → ParseResult
  | [] => .done s
  | a :: rest =>
    if a = "--version" then .exit 0 [.out versionText]
    else if a = "--sourcepos" then
      parseArgs { s with options := s.options ||| CMARK_OPT_SOURCEPOS } rest
    else if a = "--hardbreaks" then
      parseArgs { s with options := s.options ||| CMARK_OPT_HARDBREAKS } rest
    else if a = "--smart" then
      parseArgs { s with options := s.options ||| CMARK_OPT_SMART } rest
    else if a = "--safe" then
      parseArgs { s with options := s.options ||| CMARK_OPT_SAFE } rest
    else if a = "--normalize" then
      parseArgs { s with options := s.options ||| CMARK_OPT_NORMALIZE } rest
    else if a = "--validate-utf8" then
      parseArgs { s with options := s.options ||| CMARK_OPT_VALIDATE_UTF8 } rest
    else if a = "--lua" then
      match rest with
      | b :: rest2 => parseArgs { s with luafiles := s.luafiles ++ [b] } rest2
      | [] => .exit 1 [.err "No --lua file specified\n"]
    else if a = "--help" ∨ a = "-h" then .exit 0 [.out usageText]
    else if a = "--width" then
      match rest with
      | b :: rest2 =>
        if (strtol10 b).2.length > 0 then
          .exit 1 [.err ("failed parsing width \x27" ++ b ++ "\x27 at \x27" ++
                         (strtol10 b).2 ++ "\x27\n")]
        else parseArgs { s with width := (strtol10 b).1 } rest2
      | [] => .exit 1 [.err "--width requires an argument\n"]
    else if a = "-t" ∨ a = "--to" then
      match rest with
      | b :: rest2 =>
        if b = "man" then parseArgs { s with format := b, writer := .FORMAT_MAN } rest2
        else if b = "html" then parseArgs { s with format := b, writer := .FORMAT_HTML } rest2
        else if b = "xml" then parseArgs { s with format := b, writer := .FORMAT_XML } rest2
        else if b = "commonmark" then parseArgs { s with format := b, writer := .FORMAT_COMMONMARK } rest2
        else if b = "latex" then parseArgs { s with format := b, writer := .FORMAT_LATEX } rest2
        else .exit 1 [.err ("Unknown format " ++ b ++ "\n")]
      | [] => .exit 1 [.err ("No argument provided for " ++ a ++ "\n")]
    else if a.take 1 = "-" then .exit 1 [.out usageText]
    else parseArgs { s with files := s.files ++ [a] } rest

/-- A document tree, abstractly: the options the parser was created with
and the bytes that were fed to it (the external engine determines the
tree from exactly these). -/
def Doc : Type := Nat × List Nat

/-- A Lua value as far as main.c inspects it: numeric or not. -/
inductive LuaValue
  | num (n : Int)
  | other
deriving DecidableEq

/-- External behaviour of one Lua filter file: whether loading it fails
(`luaL_loadfile` or the chunk-running `lua_pcall`) with an error message,
whether invoking it as a two-argument function raises, and otherwise the
value it returns. -/
structure FilterBehavior where
  loadErr : Option String
  invokeErr : Option String
  ret : LuaValue

/-- The five external render operations consumed by `print_document`. -/
structure Renderers where
  render_html : Doc → Nat → String
  render_xml : Doc → Nat → String
  render_man : Doc → Nat → Int → String
  render_commonmark : Doc → Nat → Int → String
  render_latex : Doc → Nat → Int → String

/-- External world of a run: file contents by path (`.error` models a
failing `fopen`, carrying the `strerror` text), the bytes on stdin, the
behaviour of each Lua filter file, and the renderers. -/
structure Env where
  fs : String → Except String (List Nat)
  stdin : List Nat
  filters : String → FilterBehavior
  renderers : Renderers

/-- `sizeof(buffer)` in main.c. -/
def BUFSIZE : Nat := 4096

/-- The fread/feed loop of main.c (lines 179–184 and 192–197), with an
explicit fuel argument so the recursion is structural (each iteration
consumes BUFSIZE > 0 bytes, so `content.length` is enough fuel): read up
to BUFSIZE bytes; if none were read stop; feed the chunk; if the read was
short stop, else continue with the rest. -/
def readChunksF : Nat → List Nat → List (List Nat)
  | 0, _ => []
  | fuel + 1, content =>
    if (content.take BUFSIZE).length = 0 then []
    else if (content.take BUFSIZE).length < BUFSIZE then [content.take BUFSIZE]
    else content.take BUFSIZE :: readChunksF fuel (content.drop BUFSIZE)

/-- The chunks the read loop feeds for a given content. -/
def readChunks (content : List Nat) : List (List Nat) :=
  readChunksF content.length content

/-- Result of the file-feeding loop: either a fatal open failure (the
events up to and including the stderr report; exit 1 follows), or the
feed events plus the total bytes fed. -/
inductive FeedOut
  | fail (events : List Event)
  | ok (events : List Event) (bytes : List Nat)
deriving DecidableEq

/-- The file loop of main.c (lines 170–188): open each file in order;
an open failure reports to stderr and is fatal; otherwise feed the file
in chunks and continue. -/
def feedFiles (env : Env) : List String → FeedOut
  | [] => .ok [] []
  | p :: rest =>
    match env.fs p with
    | .error e => .fail [.err ("Error opening file " ++ p ++ ": " ++ e ++ "\n")]
    | .ok content =>
      match feedFiles env rest with
      | .fail evs =>
        .fail ((readChunks content).map (fun c => Event.feed (.file p) c) ++ evs)
      | .ok evs bytes =>
        .ok ((readChunks content).map (fun c => Event.feed (.file p) c) ++ evs)
           (content ++ bytes)

/-- Result of the filter loop: abort with a process exit code (3 for a
load failure, 5 for an invocation failure) or run to completion with the
final value of `skip_rendering`. -/
inductive FilterOut
  | abort (code : Nat)
  | done (skip : Bool)
deriving DecidableEq

/-- The Lua filter loop of main.c (lines 210–234).  Per filter: create a
fresh Lua state; load the file (failure: print the message, return 3 —
without closing the state); invoke it with the document handle and the
format string (failure: print filter name and message, return 5 — without
closing the state); if the return value is numeric, set `skip_rendering`
to whether it equals −1; close the state and continue. -/
def filterPhase (env : Env) (format : String) : List String → Nat → Bool → List Event × FilterOut
  | [], _, skip => ([], .done skip)
  | p :: rest, i, skip =>
    match (env.filters p).loadErr with
    | some m => ([.runtimeCreated i, .err (m ++ "\n")], .abort 3)
    | none =>
      match (env.filters p).invokeErr with
      | some m =>
        ([.runtimeCreated i, .filterInvoked i [.docHandle, .str format],
          .err ("Error running filter " ++ p ++ ": " ++ m ++ "\n")], .abort 5)
      | none =>
        let skip2 :=
          match (env.filters p).ret with
          | .num n => n == -1
          | .other => skip
        let r := filterPhase env format rest (i + 1) skip2
        (.runtimeCreated i :: .filterInvoked i [.docHandle, .str format] ::
           .runtimeReleased i :: r.1, r.2)

/-- `print_document` from main.c (lines 46–72): dispatch on the writer
format.  The html and xml render calls do not receive the width; the man,
commonmark and latex calls do.  Returns the text written to stdout, or
`none` on the unknown-format branch (stderr report and exit 1). -/
def print_document (R : Renderers) (document : Doc) (writer : writer_format)
    (options : Nat) (width : Int) : Option String :=
  match writer with
  | .FORMAT_HTML => some (R.render_html document options)
  | .FORMAT_XML => some (R.render_xml document options)
  | .FORMAT_MAN => some (R.render_man document options width)
  | .FORMAT_COMMONMARK => some (R.render_commonmark document options width)
  | .FORMAT_LATEX => some (R.render_latex document options width)
  | .FORMAT_NONE => none

/-- Exit code and event trace of a whole run. -/
structure Outcome where
  exitCode : Nat
  events : List Event
deriving DecidableEq

/-- `main` from main.c.  The declaration `int i, numfps, numluafps = 0;`
(line 75) initializes only `numluafps`; `numfps` starts indeterminate.
`numfps0` is that indeterminate initial value, and `junk` gives the
indeterminate paths the `files` array slots below index `numfps0` denote
when the read loop consults them.  With `numfps0 = 0` the run behaves as
intended; see `mainRun`. -/
def mainModel (numfps0 : Nat) (junk : Nat → String) (argv : List String)
    (env : Env) : Outcome :=
  match parseArgs initState argv with
  | .exit c evs => { exitCode := c, events := evs }
  | .done s =>
    let fileList := (List.range numfps0).map junk ++ s.files
    match feedFiles env fileList with
    | .fail fevs => { exitCode := 1, events := Event.parserNew s.options :: fevs }
    | .ok fevs bytes =>
      let stdinEvs :=
        if fileList = [] then (readChunks env.stdin).map (fun c => Event.feed .stdin c)
        else []
      let allBytes := if fileList = [] then env.stdin else bytes
      let base := Event.parserNew s.options :: (fevs ++ stdinEvs) ++
        [Event.treeCreated, Event.parserFree]
      match filterPhase env s.format s.luafiles 0 false with
      | (flEvs, .abort c) => { exitCode := c, events := base ++ flEvs }
      | (flEvs, .done skip) =>
        if skip then { exitCode := 0, events := base ++ flEvs ++ [Event.treeDestroyed] }
        else
          match print_document env.renderers (s.options, allBytes) s.writer s.options s.width with
          | some text =>
            { exitCode := 0,
              events := base ++ flEvs ++
                [Event.renderCall s.writer s.options s.width, Event.out text,
                 Event.treeDestroyed] }
          | none =>
            { exitCode := 1, events := base ++ flEvs ++ [Event.err "Unknown format\n"] }

/-- A run of main in which the uninitialized `numfps` happens to start
at 0 — the behaviour the rest of the code plainly assumes. -/
def mainRun (argv : List String) (env : Env) : Outcome :=
  mainModel 0 (fun _ => "") argv env

/-- Number of events of the trace satisfying `p`. -/
def countEv (o : Outcome) (p : Event → Bool) : Nat := (o.events.filter p).length

/-- Recognizer for tree-creation events. -/
def isTreeCreated : Event → Bool
  | .treeCreated => true
  | _ => false

/-- Recognizer for tree-destruction events. -/
def isTreeDestroyed : Event → Bool
  | .treeDestroyed => true
  | _ => false

/-- Recognizer for parser-feed events. -/
def isFeed : Event → Bool
  | .feed _ _ => true
  | _ => false

/-- Recognizer for stdout writes. -/
def isOut : Event → Bool
  | .out _ => true
  | _ => false

/-- Recognizer for stderr writes. -/
def isErr : Event → Bool
  | .err _ => true
  | _ => false

/-- Recognizer for render calls. -/
def isRenderCall : Event → Bool
  | .renderCall _ _ _ => true
  | _ => false

/-- Recognizer for filter invocations. -/
def isInvoke : Event → Bool
  | .filterInvoked _ _ => true
  | _ => false

/-- Events of either `FeedOut` case. -/
def FeedOut.events : FeedOut → List Event
  | .fail evs => evs
  | .ok evs _ => evs

/-- Following the spec's words (a definition to compare the code
against): RenderControl after a sequence of filter return values is SKIP
exactly when the most recent numeric return was −1; non-numeric returns
leave the state unchanged; the initial state is PROCEED. -/
def specSkip (rets : List LuaValue) : Bool :=
  rets.foldl
    (fun acc r =>
      match r with
      | .num n => n == -1
      | .other => acc)
    false

/-- Following the claim's words: a valid integer literal is an optional
sign followed by one or more decimal digits and nothing else. -/
def isValidIntegerString (a : String) : Bool :=
  match a.data with
  | '-' :: ds => !ds.isEmpty && ds.all (fun c => c.isDigit)
  | '+' :: ds => !ds.isEmpty && ds.all (fun c => c.isDigit)
  | ds => !ds.isEmpty && ds.all (fun c => c.isDigit)

/-- Net change an event makes to the number of live script-runtime
instances. -/
def liveDelta : Event → Int
  | .runtimeCreated _ => 1
  | .runtimeReleased _ => -1
  | _ => 0

/-- Scan a trace from a current live count; returns the final live count
and the maximum count reached (the start value included). -/
def scanLive : List Event → Int → Int × Int
  | [], cur => (cur, cur)
  | e :: t, cur =>
    let r := scanLive t (cur + liveDelta e)
    (r.1, max cur r.2)

lemma scanLive_start_le (evs : List Event) (c : Int) : c ≤ (scanLive evs c).2 := by
  induction evs generalizing c with
  | nil => simp [scanLive]
  | cons e t ih =>
    simp only [scanLive]
    exact le_max_left _ _

lemma scanLive_append_fst (xs ys : List Event) (c : Int) :
    (scanLive (xs ++ ys) c).1 = (scanLive ys (scanLive xs c).1).1 := by
  induction xs generalizing c with
  | nil => simp [scanLive]
  | cons e t ih =>
    simp only [List.cons_append, scanLive, List.append_eq, ih]

lemma scanLive_append_snd (xs ys : List Event) (c : Int) :
    (scanLive (xs ++ ys) c).2 =
      max (scanLive xs c).2 (scanLive ys (scanLive xs c).1).2 := by
  induction xs generalizing c with
  | nil =>
    simp only [List.nil_append, scanLive]
    rw [max_eq_right (scanLive_start_le ys c)]
  | cons e t ih =>
    simp only [List.cons_append, scanLive, List.append_eq, ih, max_assoc]

/-- Every event the file-feeding loop emits is a feed or a stderr write. -/
lemma feedFiles_events_shape (env : Env) (fl : List String) :
    ∀ e ∈ (feedFiles env fl).events, isFeed e = true ∨ isErr e = true := by
  induction fl with
  | nil => simp [feedFiles, FeedOut.events]
  | cons p rest ih =>
    intro e he
    simp only [feedFiles] at he
    cases hfs : env.fs p with
    | error m =>
      rw [hfs] at he
      simp [FeedOut.events] at he
      simp [he, isErr]
    | ok content =>
      rw [hfs] at he
      cases hrec : feedFiles env rest with
      | fail evs =>
        rw [hrec] at he
        simp [FeedOut.events] at he
        rcases he with ⟨c, _, rfl⟩ | he
        · simp [isFeed]
        · exact ih e (by rw [hrec]; exact he)
      | ok evs bytes =>
        rw [hrec] at he
        simp [FeedOut.events] at he
        rcases he with ⟨c, _, rfl⟩ | he
        · simp [isFeed]
        · exact ih e (by rw [hrec]; exact he)

/-- Shape of an event the filter loop can emit: runtime bookkeeping, a
stderr write, or an invocation with exactly the document handle and the
format string as arguments. -/
def isFilterEv (fmt : String) (e : Event) : Prop :=
  match e with
  | .runtimeCreated _ => True
  | .runtimeReleased _ => True
  | .err _ => True
  | .filterInvoked _ args => args = [.docHandle, .str fmt]
  | _ => False

lemma filterPhase_events_shape (env : Env) (fmt : String) :
    ∀ (lfs : List String) (i : Nat) (sk : Bool) (e : Event),
      e ∈ (filterPhase env fmt lfs i sk).1 → isFilterEv fmt e := by
  intro lfs
  induction lfs with
  | nil => intro i sk e he; simp [filterPhase] at he
  | cons p rest ih =>
    intro i sk e he
    cases hl : (env.filters p).loadErr with
    | some m =>
      simp [filterPhase, hl] at he
      rcases he with rfl | rfl <;> simp [isFilterEv]
    | none =>
      cases hi : (env.filters p).invokeErr with
      | some m =>
        simp [filterPhase, hl, hi] at he
        rcases he with rfl | rfl | rfl <;> simp [isFilterEv]
      | none =>
        simp [filterPhase, hl, hi] at he
        rcases he with rfl | rfl | rfl | he
        · simp [isFilterEv]
        · simp [isFilterEv]
        · simp [isFilterEv]
        · exact ih _ _ e he

lemma filterPhase_abort_codes (env : Env) (fmt : String) :
    ∀ (lfs : List String) (i : Nat) (sk : Bool) (c : Nat),
      (filterPhase env fmt lfs i sk).2 = .abort c → c = 3 ∨ c = 5 := by
  intro lfs
  induction lfs with
  | nil => intro i sk c h; simp [filterPhase] at h
  | cons p rest ih =>
    intro i sk c h
    cases hl : (env.filters p).loadErr with
    | some m =>
      simp [filterPhase, hl] at h
      left; omega
    | none =>
      cases hi : (env.filters p).invokeErr with
      | some m =>
        simp [filterPhase, hl, hi] at h
        right; omega
      | none =>
        simp [filterPhase, hl, hi] at h
        exact ih _ _ _ h

/-- The `skip_rendering` update of lines 228–231 folded over a list of
filter files, threading the current value. -/
def skipFold (env : Env) (pre : List String) (sk : Bool) : Bool :=
  pre.foldl
    (fun acc p =>
      match (env.filters p).ret with
      | .num n => n == -1
      | .other => acc)
    sk

lemma filterPhase_done_skip (env : Env) (fmt : String) :
    ∀ (lfs : List String) (i : Nat) (sk : Bool) (evs : List Event) (b : Bool),
      filterPhase env fmt lfs i sk = (evs, .done b) → b = skipFold env lfs sk := by
  intro lfs
  induction lfs with
  | nil =>
    intro i sk evs b h
    simp [filterPhase] at h
    simp [skipFold, h.2]
  | cons p rest ih =>
    intro i sk evs b h
    cases hl : (env.filters p).loadErr with
    | some m => simp [filterPhase, hl] at h
    | none =>
      cases hi : (env.filters p).invokeErr with
      | some m => simp [filterPhase, hl, hi] at h
      | none =>
        simp only [filterPhase, hl, hi] at h
        cases hr : filterPhase env fmt rest (i + 1)
            (match (env.filters p).ret with
             | .num n => n == -1
             | .other => sk) with
        | mk evs2 r2 =>
          rw [hr] at h
          cases h2 : (env.filters p).ret with
          | num n =>
            simp [h2] at h hr
            simp [skipFold, h2, ih _ _ _ _ (by rw [hr, h.2])]
          | other =>
            simp [h2] at h hr
            simp [skipFold, h2, ih _ _ _ _ (by rw [hr, h.2])]

lemma filterPhase_scanLive (env : Env) (fmt : String) :
    ∀ (lfs : List String) (i : Nat) (sk : Bool),
      (scanLive (filterPhase env fmt lfs i sk).1 0).2 ≤ 1 ∧
      (∀ b, (filterPhase env fmt lfs i sk).2 = .done b →
        (scanLive (filterPhase env fmt lfs i sk).1 0).1 = 0) ∧
      (∀ c, (filterPhase env fmt lfs i sk).2 = .abort c →
        (scanLive (filterPhase env fmt lfs i sk).1 0).1 = 1) := by
  intro lfs
  induction lfs with
  | nil =>
    intro i sk
    refine ⟨by simp [filterPhase, scanLive], fun b _ => by simp [filterPhase, scanLive],
      fun c h => by simp [filterPhase] at h⟩
  | cons p rest ih =>
    intro i sk
    cases hl : (env.filters p).loadErr with
    | some m =>
      refine ⟨by simp [filterPhase, hl, scanLive, liveDelta],
        fun b h => by simp [filterPhase, hl] at h,
        fun c h => by simp [filterPhase, hl, scanLive, liveDelta]⟩
    | none =>
      cases hi : (env.filters p).invokeErr with
      | some m =>
        refine ⟨by simp [filterPhase, hl, hi, scanLive, liveDelta],
          fun b h => by simp [filterPhase, hl, hi] at h,
          fun c h => by simp [filterPhase, hl, hi, scanLive, liveDelta]⟩
      | none =>
        have := ih (i + 1)
          (match (env.filters p).ret with
           | .num n => n == -1
           | .other => sk)
        constructor
        · simp only [filterPhase, hl, hi, scanLive, liveDelta]
          have h2 := (this).1
          norm_num
          omega
        constructor
        · intro b h
          simp only [filterPhase, hl, hi] at h ⊢
          have h2 := (this).2.1 b h
          simp only [scanLive, liveDelta]
          norm_num
          omega
        · intro c h
          simp only [filterPhase, hl, hi] at h ⊢
          have h2 := (this).2.2 c h
          simp only [scanLive, liveDelta]
          norm_num
          omega

lemma filterPhase_created_lower (env : Env) (fmt : String) :
    ∀ (lfs : List String) (i : Nat) (sk : Bool) (j : Nat), j < i →
      Event.runtimeCreated j ∉ (filterPhase env fmt lfs i sk).1 := by
  intro lfs
  induction lfs with
  | nil => intro i sk j hj; simp [filterPhase]
  | cons p rest ih =>
    intro i sk j hj
    cases hl : (env.filters p).loadErr with
    | some m => simp [filterPhase, hl]; omega
    | none =>
      cases hi : (env.filters p).invokeErr with
      | some m => simp [filterPhase, hl, hi]; omega
      | none =>
        intro hmem
        simp only [filterPhase, hl, hi, List.mem_cons] at hmem
        rcases hmem with h | h | h | h
        · injection h with h2; omega
        · exact Event.noConfusion h
        · exact Event.noConfusion h
        · exact ih (i + 1) _ j (by omega) h

lemma filterPhase_created_count (env : Env) (fmt : String) :
    ∀ (lfs : List String) (i : Nat) (sk : Bool) (j : Nat),
      (filterPhase env fmt lfs i sk).1.count (Event.runtimeCreated j) ≤ 1 := by
  intro lfs
  induction lfs with
  | nil => intro i sk j; simp [filterPhase]
  | cons p rest ih =>
    intro i sk j
    cases hl : (env.filters p).loadErr with
    | some m =>
      simp [filterPhase, hl, List.count_cons]
      split <;> omega
    | none =>
      cases hi : (env.filters p).invokeErr with
      | some m =>
        simp [filterPhase, hl, hi, List.count_cons]
        split <;> omega
      | none =>
        simp only [filterPhase, hl, hi, List.count_cons]
        by_cases hij : i = j
        · subst hij
          have hnot := filterPhase_created_lower env fmt rest (i + 1)
            (match (env.filters p).ret with
             | .num n => n == -1
             | .other => sk) i (by omega)
          have hz := List.count_eq_zero.mpr hnot
          simp [hz]
        · have hz := ih (i + 1)
            (match (env.filters p).ret with
             | .num n => n == -1
             | .other => sk) j
          simp [hij]
          omega

lemma filterPhase_ok_append (env : Env) (fmt : String) :
    ∀ (pre post : List String) (i : Nat) (sk : Bool),
      (∀ q ∈ pre, (env.filters q).loadErr = none ∧ (env.filters q).invokeErr = none) →
      filterPhase env fmt (pre ++ post) i sk =
        ((filterPhase env fmt pre i sk).1 ++
           (filterPhase env fmt post (i + pre.length) (skipFold env pre sk)).1,
         (filterPhase env fmt post (i + pre.length) (skipFold env pre sk)).2) := by
  intro pre
  induction pre with
  | nil => intro post i sk h; simp [filterPhase, skipFold]
  | cons q rest ih =>
    intro post i sk h
    have hq := h q (List.mem_cons_self q rest)
    have hrest : ∀ r ∈ rest,
        (env.filters r).loadErr = none ∧ (env.filters r).invokeErr = none :=
      fun r hr => h r (List.mem_cons_of_mem q hr)
    have harith : i + (rest.length + 1) = i + 1 + rest.length := by omega
    simp only [List.cons_append, filterPhase, hq.1, hq.2, List.append_eq]
    rw [ih post (i + 1) _ hrest]
    simp only [skipFold, List.foldl_cons, List.length_cons, harith]

/-- Content of a file as the feed loop sees it (empty if the open would
fail; only consulted on paths where the open succeeded). -/
def contentOf (env : Env) (p : String) : List Nat :=
  match env.fs p with
  | .ok c => c
  | .error _ => []

lemma feedFiles_ok_events (env : Env) :
    ∀ (fl : List String) (evs : List Event) (bytes : List Nat),
      feedFiles env fl = .ok evs bytes →
      evs = fl.bind (fun p => (readChunks (contentOf env p)).map
              (fun c => Event.feed (.file p) c)) ∧
      bytes = fl.bind (fun p => contentOf env p) := by
  intro fl
  induction fl with
  | nil =>
    intro evs bytes h
    simp [feedFiles] at h
    simp [h.1, h.2]
  | cons p rest ih =>
    intro evs bytes h
    cases hfs : env.fs p with
    | error m => simp [feedFiles, hfs] at h
    | ok content =>
      simp only [feedFiles, hfs] at h
      cases hrec : feedFiles env rest with
      | fail evs2 => rw [hrec] at h; simp at h
      | ok evs2 bytes2 =>
        rw [hrec] at h
        simp at h
        obtain ⟨h1, h2⟩ := ih evs2 bytes2 hrec
        simp [← h.1, ← h.2, h1, h2, contentOf, hfs]

lemma readChunksF_join :
    ∀ (fuel : Nat) (content : List Nat), content.length ≤ fuel →
      (readChunksF fuel content).join = content := by
  have hb : (0 : Nat) < BUFSIZE := by norm_num [BUFSIZE]
  intro fuel
  induction fuel with
  | zero =>
    intro content h
    have hc : content = [] := List.length_eq_zero.mp (Nat.le_zero.mp h)
    simp [readChunksF, hc]
  | succ n ih =>
    intro content h
    rw [readChunksF]
    by_cases h0 : (content.take BUFSIZE).length = 0
    · rw [if_pos h0]
      have hc : content = [] := by
        rw [List.length_take] at h0
        exact List.length_eq_zero.mp (by omega)
      simp [hc]
    · rw [if_neg h0]
      by_cases h1 : (content.take BUFSIZE).length < BUFSIZE
      · rw [if_pos h1]
        have hlt : content.length < BUFSIZE := by
          rw [List.length_take] at h1
          omega
        simp [List.take_of_length_le (le_of_lt hlt)]
      · rw [if_neg h1]
        have hdrop : (content.drop BUFSIZE).length ≤ n := by
          rw [List.length_drop]
          omega
        simp [ih _ hdrop]

lemma readChunks_join (content : List Nat) :
    (readChunks content).join = content :=
  readChunksF_join content.length content le_rfl

lemma readChunksF_sizes :
    ∀ (fuel : Nat) (content : List Nat),
      ∀ c ∈ readChunksF fuel content, c ≠ [] ∧ c.length ≤ BUFSIZE := by
  intro fuel
  induction fuel with
  | zero => intro content c hc; simp [readChunksF] at hc
  | succ n ih =>
    intro content c hc
    rw [readChunksF] at hc
    by_cases h0 : (content.take BUFSIZE).length = 0
    · rw [if_pos h0] at hc
      simp at hc
    · rw [if_neg h0] at hc
      by_cases h1 : (content.take BUFSIZE).length < BUFSIZE
      · rw [if_pos h1] at hc
        simp at hc
        subst hc
        refine ⟨?_, by rw [List.length_take]; omega⟩
        intro hnil
        rw [hnil] at h0
        simp at h0
      · rw [if_neg h1] at hc
        rcases List.mem_cons.mp hc with rfl | hmem
        · refine ⟨?_, by rw [List.length_take]; omega⟩
          intro hnil
          rw [hnil] at h0
          simp at h0
        · exact ih _ c hmem

lemma readChunks_sizes (content : List Nat) :
    ∀ c ∈ readChunks content, c ≠ [] ∧ c.length ≤ BUFSIZE :=
  readChunksF_sizes content.length content

lemma parseArgs_width_preserved (st : ParseState) (args : List String) :
    ∀ (sf : ParseState), "--width" ∉ args → parseArgs st args = .done sf →
      sf.width = st.width := by
  induction st, args using parseArgs.induct
  all_goals intro sf hmem hp
  all_goals rw [parseArgs.eq_def] at hp
  all_goals simp_all

lemma parseArgs_format_preserved (st : ParseState) (args : List String) :
    ∀ (sf : ParseState), "-t" ∉ args → "--to" ∉ args →
      parseArgs st args = .done sf → sf.format = st.format := by
  induction st, args using parseArgs.induct
  all_goals intro sf hm1 hm2 hp
  all_goals rw [parseArgs.eq_def] at hp
  all_goals simp_all
  all_goals (rename_i hto; rcases hto with rfl | rfl <;> simp_all)

lemma filter_shape_nil (l : List Event) (p : Event → Bool)
    (hshape : ∀ e ∈ l, isFeed e = true ∨ isErr e = true)
    (hfeed : ∀ src c, p (.feed src c) = false)
    (herr : ∀ m, p (.err m) = false) :
    l.filter p = [] := by
  rw [List.filter_eq_nil_iff]
  intro e he
  rcases hshape e he with h | h
  · cases e <;> simp [isFeed] at h <;> simp [hfeed]
  · cases e <;> simp [isErr] at h <;> simp [herr]

lemma filterPhase_filter_nil (env : Env) (fmt : String) (lfs : List String)
    (i : Nat) (sk : Bool) (p : Event → Bool)
    (hc : ∀ j, p (.runtimeCreated j) = false)
    (hr : ∀ j, p (.runtimeReleased j) = false)
    (he : ∀ m, p (.err m) = false)
    (hv : ∀ j a, p (.filterInvoked j a) = false) :
    (filterPhase env fmt lfs i sk).1.filter p = [] := by
  rw [List.filter_eq_nil_iff]
  intro e hmem
  have hs := filterPhase_events_shape env fmt lfs i sk e hmem
  cases e <;> simp [isFilterEv] at hs <;> simp [hc, hr, he, hv]

lemma stdinEvs_shape (l : List (List Nat)) :
    ∀ e ∈ l.map (fun c => Event.feed Src.stdin c), isFeed e = true ∨ isErr e = true := by
  intro e he
  simp at he
  obtain ⟨c, _, rfl⟩ := he
  left
  rfl

lemma parseArgs_exit_events (st : ParseState) (args : List String) :
    ∀ (c : Nat) (evs : List Event), parseArgs st args = .exit c evs →
      (∃ t, evs = [Event.out t]) ∨ (∃ m, evs = [Event.err m]) := by
  induction st, args using parseArgs.induct
  all_goals intro c evs hp
  all_goals rw [parseArgs.eq_def] at hp
  all_goals simp_all
  all_goals obtain ⟨h1, h2⟩ := hp
  all_goals subst h2
  all_goals first
    | exact Or.inl ⟨_, rfl⟩
    | exact Or.inr ⟨_, rfl⟩

/-- Renderers whose output is fixed text; used for concrete runs. -/
def R0 : Renderers :=
  { render_html := fun _ _ => "html-out"
    render_xml := fun _ _ => ""
    render_man := fun _ _ _ => ""
    render_commonmark := fun _ _ _ => ""
    render_latex := fun _ _ _ => "" }

/-- A filter that loads, runs and returns a non-numeric value. -/
def fbOk : FilterBehavior := { loadErr := none, invokeErr := none, ret := .other }

/-- A world where every file open fails and stdin is empty. -/
def env0 : Env :=
  { fs := fun _ => .error "e", stdin := [], filters := fun _ => fbOk,
    renderers := R0 }

/-- C3: after all filters have run, RenderControl is SKIP if and only if
the most recent filter that returned a numeric result returned exactly −1:
a numeric −1 sets SKIP, any other numeric return resets PROCEED, and a
non-numeric return leaves the state unchanged.  The skip flag the filter
loop completes with equals the spec-side fold over the filters' return
values. -/
theorem C3_skip_is_last_numeric (env : Env) (fmt : String)
    (lfs : List String) (evs : List Event) (b : Bool)
    (h : filterPhase env fmt lfs 0 false = (evs, .done b)) :
    b = specSkip (lfs.map (fun p => (env.filters p).ret)) := by
  have hb := filterPhase_done_skip env fmt lfs 0 false evs b h
  rw [hb]
  simp [skipFold, specSkip, List.foldl_map]

/-- World for the C3 witness: filter file "a" returns −1, "b" returns a
non-numeric value. -/
def envC3 : Env :=
  { fs := fun _ => .error "e", stdin := [],
    filters := fun p =>
      if p = "a" then { loadErr := none, invokeErr := none, ret := .num (-1) }
      else fbOk,
    renderers := R0 }

/-- Witness for C3 at a concrete input. -/
theorem C3_skip_is_last_numeric_witness :
    specSkip (["a", "b"].map (fun p => (envC3.filters p).ret)) = true :=
  (C3_skip_is_last_numeric envC3 "html" ["a", "b"]
    [.runtimeCreated 0, .filterInvoked 0 [.docHandle, .str "html"], .runtimeReleased 0,
     .runtimeCreated 1, .filterInvoked 1 [.docHandle, .str "html"], .runtimeReleased 1]
    true (by decide)).symm

/-- Renderers for the C8 counterexample: the man renderer's output
depends on the width it is handed. -/
def RCex : Renderers :=
  { render_html := fun _ _ => ""
    render_xml := fun _ _ => ""
    render_man := fun _ _ w => if w = 0 then "zero" else "nonzero"
    render_commonmark := fun _ _ w => if w = 0 then "zero" else "nonzero"
    render_latex := fun _ _ w => if w = 0 then "zero" else "nonzero" }

/-- C8 counterexample: the claim groups man with html and xml as
width-independent, but main.c passes the width to `cmark_render_man`
(line 58), so the man output is not the same as with width 0 for a
renderer that consults the width (as cmark's man renderer does when it
wraps). -/
theorem C8_counterexample :
    ¬ print_document RCex (0, []) .FORMAT_MAN 0 1 =
        print_document RCex (0, []) .FORMAT_MAN 0 0 := by
  decide

/-- C8 amended: the html and xml render calls do not receive the width,
so their output is identical for every width; the man, commonmark and
latex calls receive the width unchanged (width 0 is forwarded as-is,
meaning "do not wrap" to the engine). -/
theorem C8_amended_width_use (R : Renderers) (doc : Doc) (options : Nat) (width : Int) :
    print_document R doc .FORMAT_HTML options width =
        print_document R doc .FORMAT_HTML options 0 ∧
    print_document R doc .FORMAT_XML options width =
        print_document R doc .FORMAT_XML options 0 ∧
    print_document R doc .FORMAT_MAN options width =
        some (R.render_man doc options width) ∧
    print_document R doc .FORMAT_COMMONMARK options width =
        some (R.render_commonmark doc options width) ∧
    print_document R doc .FORMAT_LATEX options width =
        some (R.render_latex doc options width) :=
  ⟨rfl, rfl, rfl, rfl, rfl⟩

lemma string_length_pos_of_ne (s : String) (h : s ≠ "") : s.length > 0 := by
  cases s with
  | mk data =>
    cases data with
    | nil => simp at h
    | cons c t => simp [String.length]

/-- C9 amended: when the argument loop reaches `--width` followed by an
argument that C strtol does not consume entirely, it reports to stderr
and the process exits 1 before any parser is created or fed; an argument
strtol consumes entirely (including the empty string, which parses as 0)
is accepted; and when `--width` never occurs the width stays 0. -/
theorem C9_amended_width_parse :
    (∀ (st : ParseState) (a : String) (rest : List String), (strtol10 a).2 ≠ "" →
      parseArgs st ("--width" :: a :: rest) =
        .exit 1 [.err ("failed parsing width \x27" ++ a ++ "\x27 at \x27" ++
          (strtol10 a).2 ++ "\x27\n")]) ∧
    (∀ (st : ParseState) (a : String) (rest : List String), (strtol10 a).2 = "" →
      parseArgs st ("--width" :: a :: rest) =
        parseArgs { st with width := (strtol10 a).1 } rest) ∧
    (∀ (argv : List String) (env : Env) (evs : List Event),
      parseArgs initState argv = .exit 1 evs →
      (mainRun argv env).exitCode = 1 ∧ countEv (mainRun argv env) isFeed = 0 ∧
        countEv (mainRun argv env) isTreeCreated = 0) ∧
    (∀ (argv : List String) (sf : ParseState), "--width" ∉ argv →
      parseArgs initState argv = .done sf → sf.width = 0) := by
  refine ⟨?_, ?_, ?_, ?_⟩
  · intro st a rest h
    have hlen : (strtol10 a).2.length > 0 := string_length_pos_of_ne _ h
    rw [parseArgs.eq_def]
    simp [hlen]
  · intro st a rest h
    have hlen : ¬(strtol10 a).2.length > 0 := by simp [h]
    rw [parseArgs.eq_def]
    simp [hlen]
  · intro argv env evs hp
    have hrun : mainRun argv env = { exitCode := 1, events := evs } := by
      simp [mainRun, mainModel, hp]
    rcases parseArgs_exit_events initState argv 1 evs hp with ⟨t, rfl⟩ | ⟨m, rfl⟩ <;>
      simp [hrun, countEv, isFeed, isTreeCreated]
  · intro argv sf hmem hp
    have := parseArgs_width_preserved initState argv sf hmem hp
    simpa [initState] using this

/-- Witness for C9's amended statement at concrete inputs. -/
theorem C9_amended_width_parse_witness :
    parseArgs initState ["--width", "7x"] =
      .exit 1 [.err ("failed parsing width \x27" ++ "7x" ++ "\x27 at \x27" ++
        (strtol10 "7x").2 ++ "\x27\n")] ∧
    parseArgs initState ["--width", "7"] =
      parseArgs { initState with width := (strtol10 "7").1 } [] ∧
    ((mainRun ["-z"] env0).exitCode = 1 ∧ countEv (mainRun ["-z"] env0) isFeed = 0 ∧
      countEv (mainRun ["-z"] env0) isTreeCreated = 0) ∧
    initState.width = 0 := by
  obtain ⟨h1, h2, h3, h4⟩ := C9_amended_width_parse
  refine ⟨h1 initState "7x" [] (by decide), h2 initState "7" [] (by decide),
    h3 ["-z"] env0 [Event.out usageText] (by decide),
    h4 [] initState (by simp) rfl⟩

/-- C9 counterexample: the empty string is not a valid integer, yet
`--width ""` is accepted (strtol performs no conversion and leaves no
unconsumed characters, so the check passes): the run proceeds to parse
and exits 0 instead of failing with a usage error. -/
theorem C9_counterexample :
    isValidIntegerString "" = false ∧
    parseArgs initState ["--width", ""] = .done initState ∧
    (mainRun ["--width", ""] env0).exitCode = 0 ∧
    countEv (mainRun ["--width", ""] env0) isTreeCreated = 1 := by
  decide

/-- World for C10: nonempty stdin, every file open fails. -/
def env10 : Env :=
  { fs := fun _ => .error "e", stdin := [10], filters := fun _ => fbOk,
    renderers := R0 }

/-- Indeterminate contents of the `files` array slots. -/
def j0 : Nat → String := fun _ => ""

/-- C10: main.c line 75 declares `int i, numfps, numluafps = 0;`, which
initializes only `numluafps`; `numfps` is read uninitialized.  With no
file arguments, whether the run falls back to reading standard input is
decided by `numfps == 0`, so the outcome depends on the indeterminate
initial value: the same command line reads stdin and exits 0 when that
value is 0, but attempts to open an indeterminate path and exits 1 when
it is 1. -/
theorem C10_numfps_uninitialized :
    (mainModel 0 j0 [] env10).exitCode = 0 ∧
    countEv (mainModel 0 j0 [] env10) isFeed = 1 ∧
    (mainModel 1 j0 [] env10).exitCode = 1 ∧
    countEv (mainModel 1 j0 [] env10) isFeed = 0 ∧
    ¬mainModel 0 j0 [] env10 = mainModel 1 j0 [] env10 := by
  decide

/-- The stdin feed events of the run: used only when no file arguments
were given. -/
def stdinEvsIf (s : ParseState) (env : Env) : List Event :=
  if s.files = [] then (readChunks env.stdin).map (fun c => Event.feed Src.stdin c)
  else []

lemma stdinEvsIf_shape (s : ParseState) (env : Env) :
    ∀ e ∈ stdinEvsIf s env, isFeed e = true ∨ isErr e = true := by
  unfold stdinEvsIf
  split
  · exact stdinEvs_shape _
  · simp

/-- C4: if RenderControl is SKIP after the last filter (the filter loop
completes with `skip_rendering` true), no render operation is called,
nothing is written to standard output, the DocumentTree is still
destroyed exactly once, and the process exits with status 0. -/
theorem C4_skip_renders_nothing (argv : List String) (env : Env) (s : ParseState)
    (fevs : List Event) (bytes : List Nat) (flEvs : List Event)
    (hp : parseArgs initState argv = .done s)
    (hf : feedFiles env s.files = .ok fevs bytes)
    (hl : filterPhase env s.format s.luafiles 0 false = (flEvs, .done true)) :
    (mainRun argv env).exitCode = 0 ∧
    countEv (mainRun argv env) isRenderCall = 0 ∧
    countEv (mainRun argv env) isOut = 0 ∧
    countEv (mainRun argv env) isTreeDestroyed = 1 := by
  have hfe : ∀ e ∈ fevs, isFeed e = true ∨ isErr e = true :=
    fun e he => feedFiles_events_shape env s.files e (by rw [hf]; exact he)
  have hrun : mainRun argv env =
      { exitCode := 0,
        events := Event.parserNew s.options :: (fevs ++ stdinEvsIf s env) ++
          [Event.treeCreated, Event.parserFree] ++ flEvs ++ [Event.treeDestroyed] } := by
    simp [mainRun, mainModel, List.range_zero, hp, hf, hl, stdinEvsIf]
  rw [hrun]
  refine ⟨rfl, ?_, ?_, ?_⟩
  · have h1 := filter_shape_nil fevs isRenderCall hfe (fun _ _ => rfl) (fun _ => rfl)
    have h2 := filter_shape_nil (stdinEvsIf s env) isRenderCall (stdinEvsIf_shape s env)
      (fun _ _ => rfl) (fun _ => rfl)
    have h3 : flEvs.filter isRenderCall = [] := by
      have := filterPhase_filter_nil env s.format s.luafiles 0 false isRenderCall
        (fun _ => rfl) (fun _ => rfl) (fun _ => rfl) (fun _ _ => rfl)
      rw [hl] at this
      exact this
    simp [countEv, List.filter_append, h1, h2, h3, isRenderCall]
  · have h1 := filter_shape_nil fevs isOut hfe (fun _ _ => rfl) (fun _ => rfl)
    have h2 := filter_shape_nil (stdinEvsIf s env) isOut (stdinEvsIf_shape s env)
      (fun _ _ => rfl) (fun _ => rfl)
    have h3 : flEvs.filter isOut = [] := by
      have := filterPhase_filter_nil env s.format s.luafiles 0 false isOut
        (fun _ => rfl) (fun _ => rfl) (fun _ => rfl) (fun _ _ => rfl)
      rw [hl] at this
      exact this
    simp [countEv, List.filter_append, h1, h2, h3, isOut]
  · have h1 := filter_shape_nil fevs isTreeDestroyed hfe (fun _ _ => rfl) (fun _ => rfl)
    have h2 := filter_shape_nil (stdinEvsIf s env) isTreeDestroyed (stdinEvsIf_shape s env)
      (fun _ _ => rfl) (fun _ => rfl)
    have h3 : flEvs.filter isTreeDestroyed = [] := by
      have := filterPhase_filter_nil env s.format s.luafiles 0 false isTreeDestroyed
        (fun _ => rfl) (fun _ => rfl) (fun _ => rfl) (fun _ _ => rfl)
      rw [hl] at this
      exact this
    simp [countEv, List.filter_append, h1, h2, h3, isTreeDestroyed]

/-- World for the C4 witness: the only filter returns −1. -/
def envC4 : Env :=
  { fs := fun _ => .error "e", stdin := [],
    filters := fun _ => { loadErr := none, invokeErr := none, ret := .num (-1) },
    renderers := R0 }

/-- Witness for C4 at a concrete input. -/
theorem C4_skip_renders_nothing_witness :
    (mainRun ["--lua", "f"] envC4).exitCode = 0 ∧
    countEv (mainRun ["--lua", "f"] envC4) isRenderCall = 0 ∧
    countEv (mainRun ["--lua", "f"] envC4) isOut = 0 ∧
    countEv (mainRun ["--lua", "f"] envC4) isTreeDestroyed = 1 :=
  C4_skip_renders_nothing ["--lua", "f"] envC4
    { initState with luafiles := ["f"] } [] []
    [.runtimeCreated 0, .filterInvoked 0 [.docHandle, .str "html"], .runtimeReleased 0]
    (by decide) (by decide) (by decide)

lemma parseArgs_writer_valid (st : ParseState) (args : List String) :
    ∀ (sf : ParseState), ¬st.writer = .FORMAT_NONE → parseArgs st args = .done sf →
      ¬sf.writer = .FORMAT_NONE := by
  induction st, args using parseArgs.induct
  all_goals intro sf hw hp
  all_goals rw [parseArgs.eq_def] at hp
  all_goals simp_all

lemma print_document_some (R : Renderers) (doc : Doc) (writer : writer_format)
    (options : Nat) (width : Int) (hw : ¬writer = .FORMAT_NONE) :
    ∃ text, print_document R doc writer options width = some text := by
  cases writer <;> simp [print_document] at hw ⊢

/-- C1 counterexample: a run that reaches the PARSED state and then hits
the filter load-failure path (`return 3`, line 219) exits with the tree
created but never destroyed, contradicting the claim that exactly one
DocumentTree is destroyed on every terminal path after PARSED. -/
def envC1 : Env :=
  { fs := fun _ => .error "e", stdin := [],
    filters := fun _ => { loadErr := some "boom", invokeErr := none, ret := .other },
    renderers := R0 }

/-- C1 counterexample theorem: with one filter whose load fails, the tree
is created once, the process exits 3, and no tree destruction happens. -/
theorem C1_counterexample :
    countEv (mainRun ["--lua", "f"] envC1) isTreeCreated = 1 ∧
    (mainRun ["--lua", "f"] envC1).exitCode = 3 ∧
    countEv (mainRun ["--lua", "f"] envC1) isTreeDestroyed = 0 := by
  decide

/-- C1 amended: at most one DocumentTree is created per run; when one is
created, it is destroyed exactly once on the successful terminal paths
(exit 0: rendered or skipped), while on the filter load-failure and
invocation-failure terminal paths (the only nonzero exits after PARSED,
codes 3 and 5) the process exits without destroying it. -/
theorem C1_amended_tree_lifetime (argv : List String) (env : Env) :
    countEv (mainRun argv env) isTreeCreated ≤ 1 ∧
    (countEv (mainRun argv env) isTreeCreated = 1 →
      ((mainRun argv env).exitCode = 0 → countEv (mainRun argv env) isTreeDestroyed = 1) ∧
      (¬(mainRun argv env).exitCode = 0 →
        ((mainRun argv env).exitCode = 3 ∨ (mainRun argv env).exitCode = 5) ∧
        countEv (mainRun argv env) isTreeDestroyed = 0)) := by
  cases hp : parseArgs initState argv with
  | exit c evs =>
    have hrun : mainRun argv env = { exitCode := c, events := evs } := by
      simp [mainRun, mainModel, hp]
    rcases parseArgs_exit_events initState argv c evs hp with ⟨t, rfl⟩ | ⟨m, rfl⟩ <;>
      simp [hrun, countEv, isTreeCreated, isTreeDestroyed]
  | done s =>
    cases hf : feedFiles env s.files with
    | fail fevs =>
      have hrun : mainRun argv env =
          { exitCode := 1, events := Event.parserNew s.options :: fevs } := by
        simp [mainRun, mainModel, List.range_zero, hp, hf]
      have hfe : ∀ e ∈ fevs, isFeed e = true ∨ isErr e = true :=
        fun e he => feedFiles_events_shape env s.files e (by rw [hf]; exact he)
      have h1 := filter_shape_nil fevs isTreeCreated hfe (fun _ _ => rfl) (fun _ => rfl)
      simp [hrun, countEv, List.filter_cons, h1, isTreeCreated]
    | ok fevs bytes =>
      have hfe : ∀ e ∈ fevs, isFeed e = true ∨ isErr e = true :=
        fun e he => feedFiles_events_shape env s.files e (by rw [hf]; exact he)
      have h1 := filter_shape_nil fevs isTreeCreated hfe (fun _ _ => rfl) (fun _ => rfl)
      have h2 := filter_shape_nil (stdinEvsIf s env) isTreeCreated (stdinEvsIf_shape s env)
        (fun _ _ => rfl) (fun _ => rfl)
      have h1d := filter_shape_nil fevs isTreeDestroyed hfe (fun _ _ => rfl) (fun _ => rfl)
      have h2d := filter_shape_nil (stdinEvsIf s env) isTreeDestroyed (stdinEvsIf_shape s env)
        (fun _ _ => rfl) (fun _ => rfl)
      cases hl : filterPhase env s.format s.luafiles 0 false with
      | mk flEvs fres =>
        have h3 : flEvs.filter isTreeCreated = [] := by
          have := filterPhase_filter_nil env s.format s.luafiles 0 false isTreeCreated
            (fun _ => rfl) (fun _ => rfl) (fun _ => rfl) (fun _ _ => rfl)
          rw [hl] at this
          exact this
        have h3d : flEvs.filter isTreeDestroyed = [] := by
          have := filterPhase_filter_nil env s.format s.luafiles 0 false isTreeDestroyed
            (fun _ => rfl) (fun _ => rfl) (fun _ => rfl) (fun _ _ => rfl)
          rw [hl] at this
          exact this
        cases fres with
        | abort c =>
          have hc : c = 3 ∨ c = 5 := filterPhase_abort_codes env s.format s.luafiles 0 false c
            (by rw [hl])
          have hrun : mainRun argv env =
              { exitCode := c,
                events := Event.parserNew s.options :: (fevs ++ stdinEvsIf s env) ++
                  [Event.treeCreated, Event.parserFree] ++ flEvs } := by
            simp [mainRun, mainModel, List.range_zero, hp, hf, hl, stdinEvsIf]
          have hcz : ¬c = 0 := by rcases hc with rfl | rfl <;> simp
          simp [hrun, countEv, List.filter_append, h1, h2, h3, h1d, h2d, h3d,
            isTreeCreated, isTreeDestroyed, hcz, hc]
        | done sk =>
          cases sk with
          | true =>
            have hrun : mainRun argv env =
                { exitCode := 0,
                  events := Event.parserNew s.options :: (fevs ++ stdinEvsIf s env) ++
                    [Event.treeCreated, Event.parserFree] ++ flEvs ++
                    [Event.treeDestroyed] } := by
              simp [mainRun, mainModel, List.range_zero, hp, hf, hl, stdinEvsIf]
            simp [hrun, countEv, List.filter_append, h1, h2, h3, h1d, h2d, h3d,
              isTreeCreated, isTreeDestroyed]
          | false =>
            have hw := parseArgs_writer_valid initState argv s (by simp [initState]) hp
            obtain ⟨text, hpd⟩ := print_document_some env.renderers
              (s.options, if s.files = [] then env.stdin else bytes) s.writer
              s.options s.width hw
            have hrun : mainRun argv env =
                { exitCode := 0,
                  events := Event.parserNew s.options :: (fevs ++ stdinEvsIf s env) ++
                    [Event.treeCreated, Event.parserFree] ++ flEvs ++
                    [Event.renderCall s.writer s.options s.width, Event.out text,
                     Event.treeDestroyed] } := by
              simp [mainRun, mainModel, List.range_zero, hp, hf, hl, hpd, stdinEvsIf]
            simp [hrun, countEv, List.filter_append, h1, h2, h3, h1d, h2d, h3d,
              isTreeCreated, isTreeDestroyed]

/-- Witness for C1's amended statement at a concrete input. -/
theorem C1_amended_tree_lifetime_witness :
    countEv (mainRun [] env0) isTreeDestroyed = 1 :=
  ((C1_amended_tree_lifetime [] env0).2 (by decide)).1 (by decide)

lemma scanLive_zero (l : List Event) (c : Int) (h : ∀ e ∈ l, liveDelta e = 0) :
    scanLive l c = (c, c) := by
  induction l generalizing c with
  | nil => rfl
  | cons e t ih =>
    have he : liveDelta e = 0 := h e (List.mem_cons_self e t)
    have ht : ∀ x ∈ t, liveDelta x = 0 := fun x hx => h x (List.mem_cons_of_mem e hx)
    simp [scanLive, he, ih _ ht]

lemma scanLive_fst_le_snd (l : List Event) (c : Int) :
    (scanLive l c).1 ≤ (scanLive l c).2 := by
  induction l generalizing c with
  | nil => simp [scanLive]
  | cons e t ih =>
    simp only [scanLive]
    exact le_trans (ih _) (le_max_right _ _)

lemma liveDelta_zero_of_feed_err (l : List Event)
    (h : ∀ e ∈ l, isFeed e = true ∨ isErr e = true) :
    ∀ e ∈ l, liveDelta e = 0 := by
  intro e he
  rcases h e he with h1 | h1 <;> cases e <;> simp [isFeed, isErr] at h1 <;> rfl

lemma scanLive_zero_prefix (pre rest : List Event)
    (h : ∀ e ∈ pre, liveDelta e = 0) (c : Int) :
    scanLive (pre ++ rest) c = scanLive rest c := by
  induction pre generalizing c with
  | nil => rfl
  | cons e t ih =>
    have he : liveDelta e = 0 := h e (List.mem_cons_self e t)
    have ht : ∀ x ∈ t, liveDelta x = 0 := fun x hx => h x (List.mem_cons_of_mem e hx)
    simp only [List.cons_append, scanLive, he, add_zero, List.append_eq, ih ht]
    exact Prod.ext rfl (max_eq_right (scanLive_start_le rest c))

lemma scanLive_zero_suffix (l post : List Event)
    (h : ∀ e ∈ post, liveDelta e = 0) (c : Int) :
    scanLive (l ++ post) c = scanLive l c := by
  have hfst := scanLive_append_fst l post c
  have hsnd := scanLive_append_snd l post c
  rw [scanLive_zero post _ h] at hfst hsnd
  refine Prod.ext ?_ ?_
  · exact hfst
  · rw [hsnd]
    exact max_eq_left (scanLive_fst_le_snd l c)

lemma scanLive_run_shape (a : Event) (fevs stEvs flEvs post : List Event)
    (ha : liveDelta a = 0)
    (hfe : ∀ e ∈ fevs ++ stEvs, liveDelta e = 0)
    (hpost : ∀ e ∈ post, liveDelta e = 0) :
    scanLive (a :: (fevs ++ stEvs) ++ [Event.treeCreated, Event.parserFree] ++
      flEvs ++ post) 0 = scanLive flEvs 0 := by
  have hchunk : ∀ e ∈ a :: (fevs ++ stEvs), liveDelta e = 0 := by
    intro e he
    rcases List.mem_cons.mp he with rfl | hmem
    · exact ha
    · exact hfe e hmem
  have hcf : ∀ e ∈ [Event.treeCreated, Event.parserFree], liveDelta e = 0 := by
    intro e he
    rcases List.mem_cons.mp he with rfl | he2
    · rfl
    · rcases List.mem_cons.mp he2 with rfl | he3
      · rfl
      · simp at he3
  rw [scanLive_zero_suffix _ post hpost, List.append_assoc,
    scanLive_zero_prefix _ _ hchunk, scanLive_zero_prefix _ _ hcf]

lemma count_zero_of_shape (l : List Event) (a : Event)
    (h : ∀ e ∈ l, ¬e = a) : l.count a = 0 :=
  List.count_eq_zero.mpr (fun hmem => h a hmem rfl)

lemma parseArgs_exit_code (st : ParseState) (args : List String) :
    ∀ (c : Nat) (evs : List Event), parseArgs st args = .exit c evs →
      c = 0 ∨ c = 1 := by
  induction st, args using parseArgs.induct
  all_goals intro c evs hp
  all_goals rw [parseArgs.eq_def] at hp
  all_goals simp_all
  all_goals omega

lemma scanLive_run_shape3 (a : Event) (fevs stEvs flEvs : List Event)
    (ha : liveDelta a = 0)
    (hfe : ∀ e ∈ fevs ++ stEvs, liveDelta e = 0) :
    scanLive (a :: (fevs ++ stEvs) ++ [Event.treeCreated, Event.parserFree] ++
      flEvs) 0 = scanLive flEvs 0 := by
  have hchunk : ∀ e ∈ a :: (fevs ++ stEvs), liveDelta e = 0 := by
    intro e he
    rcases List.mem_cons.mp he with rfl | hmem
    · exact ha
    · exact hfe e hmem
  have hcf : ∀ e ∈ [Event.treeCreated, Event.parserFree], liveDelta e = 0 := by
    intro e he
    rcases List.mem_cons.mp he with rfl | he2
    · rfl
    · rcases List.mem_cons.mp he2 with rfl | he3
      · rfl
      · simp at he3
  rw [List.append_assoc, scanLive_zero_prefix _ _ hchunk, scanLive_zero_prefix _ _ hcf]

lemma shape_not_created (l : List Event)
    (h : ∀ e ∈ l, isFeed e = true ∨ isErr e = true) (i : Nat) :
    ∀ e ∈ l, ¬e = Event.runtimeCreated i := by
  intro e he heq
  rcases h e he with h1 | h1 <;> rw [heq] at h1 <;> simp [isFeed, isErr] at h1

/-- World for the C2 counterexample: the only filter's invocation
raises. -/
def envC2 : Env :=
  { fs := fun _ => .error "e", stdin := [],
    filters := fun _ => { loadErr := none, invokeErr := some "ex", ret := .other },
    renderers := R0 }

/-- C2 counterexample: when a filter invocation raises, main.c returns 5
(line 226) without calling `lua_close`, so the runtime instance created
for that filter is never released before the process exits, contradicting
the claim that the instance is released on every path. -/
theorem C2_counterexample :
    (mainRun ["--lua", "g"] envC2).exitCode = 5 ∧
    (mainRun ["--lua", "g"] envC2).events.count (Event.runtimeCreated 0) = 1 ∧
    (mainRun ["--lua", "g"] envC2).events.count (Event.runtimeReleased 0) = 0 := by
  decide

/-- C2 amended: runtime instances are well-nested with at most one live
at any instant, each filter index gets at most one fresh instance, and
every instance is released before the next filter begins on the paths
where the run terminates with code 0 or 1; but on the filter load-failure
and invocation-failure paths (exit 3 or 5) the process exits with the
failing filter's instance still unreleased. -/
theorem C2_amended_runtime_lifetime (argv : List String) (env : Env) :
    (scanLive (mainRun argv env).events 0).2 ≤ 1 ∧
    (∀ i, (mainRun argv env).events.count (Event.runtimeCreated i) ≤ 1) ∧
    (((mainRun argv env).exitCode = 0 ∨ (mainRun argv env).exitCode = 1) →
      (scanLive (mainRun argv env).events 0).1 = 0) ∧
    (((mainRun argv env).exitCode = 3 ∨ (mainRun argv env).exitCode = 5) →
      (scanLive (mainRun argv env).events 0).1 = 1) := by
  cases hp : parseArgs initState argv with
  | exit c evs =>
    have hrun : mainRun argv env = { exitCode := c, events := evs } := by
      simp [mainRun, mainModel, hp]
    have hcode := parseArgs_exit_code initState argv c evs hp
    rcases parseArgs_exit_events initState argv c evs hp with ⟨t, rfl⟩ | ⟨m, rfl⟩ <;>
      refine ⟨by simp [hrun, scanLive, liveDelta], by intro i; simp [hrun],
        fun _ => by simp [hrun, scanLive, liveDelta], fun hcontra => ?_⟩ <;>
      · rw [hrun] at hcontra
        simp at hcontra
        omega
  | done s =>
    cases hf : feedFiles env s.files with
    | fail fevs =>
      have hrun : mainRun argv env =
          { exitCode := 1, events := Event.parserNew s.options :: fevs } := by
        simp [mainRun, mainModel, List.range_zero, hp, hf]
      have hfe : ∀ e ∈ fevs, isFeed e = true ∨ isErr e = true :=
        fun e he => feedFiles_events_shape env s.files e (by rw [hf]; exact he)
      have hz : ∀ e ∈ Event.parserNew s.options :: fevs, liveDelta e = 0 := by
        intro e he
        rcases List.mem_cons.mp he with rfl | hmem
        · rfl
        · exact liveDelta_zero_of_feed_err fevs hfe e hmem
      have hscan := scanLive_zero _ (0 : Int) hz
      refine ⟨by simp [hrun, hscan], ?_, fun _ => by simp [hrun, hscan], fun hc => ?_⟩
      · intro i
        rw [hrun]
        simp only [List.count_cons]
        rw [count_zero_of_shape fevs _ (shape_not_created fevs hfe i)]
        simp
      · rw [hrun] at hc
        simp at hc
    | ok fevs bytes =>
      have hfe : ∀ e ∈ fevs, isFeed e = true ∨ isErr e = true :=
        fun e he => feedFiles_events_shape env s.files e (by rw [hf]; exact he)
      have hfs : ∀ e ∈ fevs ++ stdinEvsIf s env, isFeed e = true ∨ isErr e = true := by
        intro e he
        rcases List.mem_append.mp he with h | h
        · exact hfe e h
        · exact stdinEvsIf_shape s env e h
      have hfz : ∀ e ∈ fevs ++ stdinEvsIf s env, liveDelta e = 0 :=
        liveDelta_zero_of_feed_err _ hfs
      have hcount0 : ∀ i, (fevs ++ stdinEvsIf s env).count (Event.runtimeCreated i) = 0 :=
        fun i => count_zero_of_shape _ _ (shape_not_created _ hfs i)
      cases hl : filterPhase env s.format s.luafiles 0 false with
      | mk flEvs fres =>
        have hsl := filterPhase_scanLive env s.format s.luafiles 0 false
        rw [hl] at hsl
        have hcl : ∀ i, flEvs.count (Event.runtimeCreated i) ≤ 1 := by
          intro i
          have := filterPhase_created_count env s.format s.luafiles 0 false i
          rw [hl] at this
          exact this
        cases fres with
        | abort c =>
          have hc : c = 3 ∨ c = 5 := filterPhase_abort_codes env s.format s.luafiles 0 false c
            (by rw [hl])
          have hrun : mainRun argv env =
              { exitCode := c,
                events := Event.parserNew s.options :: (fevs ++ stdinEvsIf s env) ++
                  [Event.treeCreated, Event.parserFree] ++ flEvs } := by
            simp [mainRun, mainModel, List.range_zero, hp, hf, hl, stdinEvsIf]
          have hscan := scanLive_run_shape3 (Event.parserNew s.options)
            fevs (stdinEvsIf s env) flEvs rfl hfz
          refine ⟨by rw [hrun]; simp only [hscan]; exact hsl.1, ?_, fun h0 => ?_, fun _ => ?_⟩
          · intro i
            rw [hrun]
            rw [List.count_append, List.count_append, List.count_cons]
            rw [hcount0 i]
            simp [hcl i]
          · rw [hrun] at h0
            simp at h0
            rcases hc with rfl | rfl <;> omega
          · rw [hrun]
            simp only [hscan]
            exact hsl.2.2 c rfl
        | done sk =>
          have hfinal : (scanLive flEvs 0).1 = 0 := hsl.2.1 sk rfl
          have hdo : ∀ (post : List Event), (∀ e ∈ post, liveDelta e = 0) →
              (∀ e ∈ post, ∀ i, ¬e = Event.runtimeCreated i) →
              scanLive (Event.parserNew s.options :: (fevs ++ stdinEvsIf s env) ++
                [Event.treeCreated, Event.parserFree] ++ flEvs ++ post) 0 = scanLive flEvs 0 ∧
              (∀ i, (Event.parserNew s.options :: (fevs ++ stdinEvsIf s env) ++
                [Event.treeCreated, Event.parserFree] ++ flEvs ++ post).count
                  (Event.runtimeCreated i) ≤ 1) := by
            intro post hz hnc
            refine ⟨scanLive_run_shape _ _ _ _ post rfl hfz hz, ?_⟩
            intro i
            rw [List.count_append, List.count_append, List.count_append, List.count_cons]
            rw [hcount0 i, count_zero_of_shape post _ (fun e he => hnc e he i)]
            simp [hcl i]
          cases sk with
          | true =>
            have hrun : mainRun argv env =
                { exitCode := 0,
                  events := Event.parserNew s.options :: (fevs ++ stdinEvsIf s env) ++
                    [Event.treeCreated, Event.parserFree] ++ flEvs ++
                    [Event.treeDestroyed] } := by
              simp [mainRun, mainModel, List.range_zero, hp, hf, hl, stdinEvsIf]
            obtain ⟨hscan, hcnt⟩ := hdo [Event.treeDestroyed]
              (by intro e he; simp at he; subst he; rfl)
              (by intro e he i; simp at he; subst he; simp)
            refine ⟨by rw [hrun]; simp only [hscan]; exact hsl.1,
              by intro i; rw [hrun]; exact hcnt i,
              fun _ => by rw [hrun]; simp only [hscan]; exact hfinal,
              fun hc => by rw [hrun] at hc; simp at hc⟩
          | false =>
            have hw := parseArgs_writer_valid initState argv s (by simp [initState]) hp
            obtain ⟨text, hpd⟩ := print_document_some env.renderers
              (s.options, if s.files = [] then env.stdin else bytes) s.writer
              s.options s.width hw
            have hrun : mainRun argv env =
                { exitCode := 0,
                  events := Event.parserNew s.options :: (fevs ++ stdinEvsIf s env) ++
                    [Event.treeCreated, Event.parserFree] ++ flEvs ++
                    [Event.renderCall s.writer s.options s.width, Event.out text,
                     Event.treeDestroyed] } := by
              simp [mainRun, mainModel, List.range_zero, hp, hf, hl, hpd, stdinEvsIf]
            obtain ⟨hscan, hcnt⟩ := hdo
              [Event.renderCall s.writer s.options s.width, Event.out text,
               Event.treeDestroyed]
              (by intro e he; simp at he; rcases he with rfl | rfl | rfl <;> rfl)
              (by intro e he i; simp at he; rcases he with rfl | rfl | rfl <;> simp)
            refine ⟨by rw [hrun]; simp only [hscan]; exact hsl.1,
              by intro i; rw [hrun]; exact hcnt i,
              fun _ => by rw [hrun]; simp only [hscan]; exact hfinal,
              fun hc => by rw [hrun] at hc; simp at hc⟩

/-- Witness for C2's amended statement at a concrete input. -/
theorem C2_amended_runtime_lifetime_witness :
    (scanLive (mainRun ["--lua", "g"] envC2).events 0).1 = 1 :=
  (C2_amended_runtime_lifetime ["--lua", "g"] envC2).2.2.2 (by decide)

lemma filterPhase_abort_err (env : Env) (fmt : String) :
    ∀ (lfs : List String) (i : Nat) (sk : Bool) (c : Nat),
      (filterPhase env fmt lfs i sk).2 = .abort c →
      ∃ m, Event.err m ∈ (filterPhase env fmt lfs i sk).1 := by
  intro lfs
  induction lfs with
  | nil => intro i sk c h; simp [filterPhase] at h
  | cons p rest ih =>
    intro i sk c h
    cases hl : (env.filters p).loadErr with
    | some m =>
      refine ⟨m ++ "\n", ?_⟩
      simp [filterPhase, hl]
    | none =>
      cases hi : (env.filters p).invokeErr with
      | some m =>
        refine ⟨"Error running filter " ++ p ++ ": " ++ m ++ "\n", ?_⟩
        simp [filterPhase, hl, hi]
      | none =>
        simp only [filterPhase, hl, hi] at h ⊢
        obtain ⟨m, hm⟩ := ih (i + 1) _ c h
        exact ⟨m, by simp [hm]⟩

/-- C5: a filter load/compile failure terminates the process with exit
code 3, a filter invocation failure with exit code 5; the two codes
differ from each other and from 1; in both cases a diagnostic is written
to standard error and no render call is made and nothing is written to
standard output. -/
theorem C5_failure_exit_codes :
    (∀ (env : Env) (fmt : String) (pre post : List String) (p : String)
        (i : Nat) (sk : Bool) (m : String),
      (∀ q ∈ pre, (env.filters q).loadErr = none ∧ (env.filters q).invokeErr = none) →
      (env.filters p).loadErr = some m →
      (filterPhase env fmt (pre ++ p :: post) i sk).2 = .abort 3) ∧
    (∀ (env : Env) (fmt : String) (pre post : List String) (p : String)
        (i : Nat) (sk : Bool) (m : String),
      (∀ q ∈ pre, (env.filters q).loadErr = none ∧ (env.filters q).invokeErr = none) →
      (env.filters p).loadErr = none → (env.filters p).invokeErr = some m →
      (filterPhase env fmt (pre ++ p :: post) i sk).2 = .abort 5) ∧
    (∀ (argv : List String) (env : Env) (s : ParseState) (fevs : List Event)
        (bytes : List Nat) (flEvs : List Event) (c : Nat),
      parseArgs initState argv = .done s →
      feedFiles env s.files = .ok fevs bytes →
      filterPhase env s.format s.luafiles 0 false = (flEvs, .abort c) →
      (mainRun argv env).exitCode = c ∧ (c = 3 ∨ c = 5) ∧
      countEv (mainRun argv env) isOut = 0 ∧
      countEv (mainRun argv env) isRenderCall = 0 ∧
      1 ≤ countEv (mainRun argv env) isErr) ∧
    ((3 : Nat) ≠ 5 ∧ (3 : Nat) ≠ 1 ∧ (5 : Nat) ≠ 1) := by
  refine ⟨?_, ?_, ?_, by omega⟩
  · intro env fmt pre post p i sk m hpre hload
    rw [filterPhase_ok_append env fmt pre (p :: post) i sk hpre]
    simp [filterPhase, hload]
  · intro env fmt pre post p i sk m hpre hload hinv
    rw [filterPhase_ok_append env fmt pre (p :: post) i sk hpre]
    simp [filterPhase, hload, hinv]
  · intro argv env s fevs bytes flEvs c hp hf hl
    have hfe : ∀ e ∈ fevs, isFeed e = true ∨ isErr e = true :=
      fun e he => feedFiles_events_shape env s.files e (by rw [hf]; exact he)
    have hrun : mainRun argv env =
        { exitCode := c,
          events := Event.parserNew s.options :: (fevs ++ stdinEvsIf s env) ++
            [Event.treeCreated, Event.parserFree] ++ flEvs } := by
      simp [mainRun, mainModel, List.range_zero, hp, hf, hl, stdinEvsIf]
    have hc : c = 3 ∨ c = 5 :=
      filterPhase_abort_codes env s.format s.luafiles 0 false c (by rw [hl])
    obtain ⟨m, hm⟩ : ∃ m, Event.err m ∈ flEvs := by
      have := filterPhase_abort_err env s.format s.luafiles 0 false c (by rw [hl])
      rw [hl] at this
      exact this
    refine ⟨by rw [hrun], hc, ?_, ?_, ?_⟩
    · have h1 := filter_shape_nil fevs isOut hfe (fun _ _ => rfl) (fun _ => rfl)
      have h2 := filter_shape_nil (stdinEvsIf s env) isOut (stdinEvsIf_shape s env)
        (fun _ _ => rfl) (fun _ => rfl)
      have h3 : flEvs.filter isOut = [] := by
        have := filterPhase_filter_nil env s.format s.luafiles 0 false isOut
          (fun _ => rfl) (fun _ => rfl) (fun _ => rfl) (fun _ _ => rfl)
        rw [hl] at this
        exact this
      simp [hrun, countEv, List.filter_append, h1, h2, h3, isOut]
    · have h1 := filter_shape_nil fevs isRenderCall hfe (fun _ _ => rfl) (fun _ => rfl)
      have h2 := filter_shape_nil (stdinEvsIf s env) isRenderCall (stdinEvsIf_shape s env)
        (fun _ _ => rfl) (fun _ => rfl)
      have h3 : flEvs.filter isRenderCall = [] := by
        have := filterPhase_filter_nil env s.format s.luafiles 0 false isRenderCall
          (fun _ => rfl) (fun _ => rfl) (fun _ => rfl) (fun _ _ => rfl)
        rw [hl] at this
        exact this
      simp [hrun, countEv, List.filter_append, h1, h2, h3, isRenderCall]
    · have hmem : Event.err m ∈ (mainRun argv env).events := by
        rw [hrun]
        simp [hm]
      have hmf : Event.err m ∈ (mainRun argv env).events.filter isErr :=
        List.mem_filter.mpr ⟨hmem, rfl⟩
      have := List.length_pos.mpr (List.ne_nil_of_mem hmf)
      simpa [countEv] using this

/-- Witness for C5 at concrete inputs: a load failure gives code 3, an
invocation failure gives code 5, and the invocation-failure run exits 5
with a diagnostic and no output. -/
theorem C5_failure_exit_codes_witness :
    (filterPhase envC1 "html" ([] ++ "f" :: []) 0 false).2 = .abort 3 ∧
    (filterPhase envC2 "html" ([] ++ "g" :: []) 0 false).2 = .abort 5 ∧
    ((mainRun ["--lua", "g"] envC2).exitCode = 5 ∧ ((5 : Nat) = 3 ∨ (5 : Nat) = 5) ∧
      countEv (mainRun ["--lua", "g"] envC2) isOut = 0 ∧
      countEv (mainRun ["--lua", "g"] envC2) isRenderCall = 0 ∧
      1 ≤ countEv (mainRun ["--lua", "g"] envC2) isErr) := by
  obtain ⟨h1, h2, h3, _⟩ := C5_failure_exit_codes
  refine ⟨h1 envC1 "html" [] [] "f" 0 false "boom" (by simp) (by decide),
    h2 envC2 "html" [] [] "g" 0 false "ex" (by simp) (by decide) (by decide),
    h3 ["--lua", "g"] envC2 { initState with luafiles := ["g"] } [] []
      [.runtimeCreated 0, .filterInvoked 0 [.docHandle, .str "html"],
       .err ("Error running filter " ++ "g" ++ ": " ++ "ex" ++ "\n")] 5
      (by decide) (by decide) (by decide)⟩

lemma not_invoke_of_feed_err (e : Event) (h : isFeed e = true ∨ isErr e = true) :
    isInvoke e = false := by
  rcases h with h | h <;> cases e <;> simp [isFeed, isErr] at h <;> rfl

lemma filterPhase_done_invokes (env : Env) (fmt : String) :
    ∀ (lfs : List String) (i : Nat) (sk : Bool) (b : Bool) (evs : List Event),
      filterPhase env fmt lfs i sk = (evs, .done b) →
      ∀ j, j < lfs.length →
        Event.filterInvoked (i + j) [.docHandle, .str fmt] ∈ evs := by
  intro lfs
  induction lfs with
  | nil => intro i sk b evs h j hj; simp at hj
  | cons p rest ih =>
    intro i sk b evs h j hj
    cases hl : (env.filters p).loadErr with
    | some m => simp [filterPhase, hl] at h
    | none =>
      cases hi : (env.filters p).invokeErr with
      | some m => simp [filterPhase, hl, hi] at h
      | none =>
        simp only [filterPhase, hl, hi] at h
        cases hr : filterPhase env fmt rest (i + 1)
            (match (env.filters p).ret with
             | .num n => n == -1
             | .other => sk) with
        | mk evs2 r2 =>
          rw [hr] at h
          rw [Prod.mk.injEq] at h
          obtain ⟨hevs, hres⟩ := h
          have hres2 : r2 = FilterOut.done b := hres
          cases j with
          | zero => rw [← hevs]; simp
          | succ k =>
            have hk : k < rest.length := by simpa using hj
            have := ih (i + 1) _ b evs2 (by rw [hr, hres2]) k hk
            rw [← hevs]
            have harith : i + 1 + k = i + (k + 1) := by omega
            rw [harith] at this
            simp [this]

/-- C6: every filter is invoked with exactly two arguments, the handle
to the current DocumentTree and the format name as text; the format is
the one resolved by argument parsing before any filter runs, the same
for every filter, and it defaults to "html" when no `-t`/`--to` flag is
given; when the filter loop completes, every filter in the list was so
invoked. -/
theorem C6_two_argument_invocation (argv : List String) (env : Env) (s : ParseState)
    (hp : parseArgs initState argv = .done s) :
    (∀ e ∈ (mainRun argv env).events, isInvoke e = true →
      ∃ i, e = Event.filterInvoked i [FilterArg.docHandle, FilterArg.str s.format]) ∧
    (∀ (fevs : List Event) (bytes : List Nat) (flEvs : List Event) (b : Bool),
      feedFiles env s.files = .ok fevs bytes →
      filterPhase env s.format s.luafiles 0 false = (flEvs, .done b) →
      ∀ j, j < s.luafiles.length →
        Event.filterInvoked j [.docHandle, .str s.format] ∈ (mainRun argv env).events) ∧
    ("-t" ∉ argv → "--to" ∉ argv → s.format = "html") := by
  refine ⟨?_, ?_, ?_⟩
  · cases hf : feedFiles env s.files with
    | fail fevs =>
      have hrun : mainRun argv env =
          { exitCode := 1, events := Event.parserNew s.options :: fevs } := by
        simp [mainRun, mainModel, List.range_zero, hp, hf]
      have hfe : ∀ e ∈ fevs, isFeed e = true ∨ isErr e = true :=
        fun e he => feedFiles_events_shape env s.files e (by rw [hf]; exact he)
      rw [hrun]
      intro e he hinv
      rcases List.mem_cons.mp he with rfl | he2
      · simp [isInvoke] at hinv
      · rw [not_invoke_of_feed_err e (hfe e he2)] at hinv
        simp at hinv
    | ok fevs bytes =>
      have hfe : ∀ e ∈ fevs, isFeed e = true ∨ isErr e = true :=
        fun e he => feedFiles_events_shape env s.files e (by rw [hf]; exact he)
      have hfs : ∀ e ∈ fevs ++ stdinEvsIf s env, isFeed e = true ∨ isErr e = true := by
        intro e he
        rcases List.mem_append.mp he with h | h
        · exact hfe e h
        · exact stdinEvsIf_shape s env e h
      cases hl : filterPhase env s.format s.luafiles 0 false with
      | mk flEvs fres =>
        have key1 : ∀ e ∈ Event.parserNew s.options :: (fevs ++ stdinEvsIf s env) ++
            [Event.treeCreated, Event.parserFree] ++ flEvs, isInvoke e = true →
            ∃ i, e = Event.filterInvoked i [FilterArg.docHandle, FilterArg.str s.format] := by
          intro e he hinv
          rcases List.mem_append.mp he with he1 | he2
          · rcases List.mem_append.mp he1 with he3 | he4
            · rcases List.mem_cons.mp he3 with rfl | he5
              · simp [isInvoke] at hinv
              · rw [not_invoke_of_feed_err e (hfs e he5)] at hinv
                simp at hinv
            · rcases List.mem_cons.mp he4 with rfl | he6
              · simp [isInvoke] at hinv
              · rcases List.mem_cons.mp he6 with rfl | he7
                · simp [isInvoke] at hinv
                · simp at he7
          · have hs := filterPhase_events_shape env s.format s.luafiles 0 false e
              (by rw [hl]; exact he2)
            cases e <;> simp [isInvoke] at hinv
            case filterInvoked j args =>
              simp [isFilterEv] at hs
              exact ⟨j, by rw [hs]⟩
        cases fres with
        | abort c =>
          have hrun : mainRun argv env =
              { exitCode := c,
                events := Event.parserNew s.options :: (fevs ++ stdinEvsIf s env) ++
                  [Event.treeCreated, Event.parserFree] ++ flEvs } := by
            simp [mainRun, mainModel, List.range_zero, hp, hf, hl, stdinEvsIf]
          rw [hrun]
          exact key1
        | done sk =>
          cases sk with
          | true =>
            have hrun : mainRun argv env =
                { exitCode := 0,
                  events := Event.parserNew s.options :: (fevs ++ stdinEvsIf s env) ++
                    [Event.treeCreated, Event.parserFree] ++ flEvs ++
                    [Event.treeDestroyed] } := by
              simp [mainRun, mainModel, List.range_zero, hp, hf, hl, stdinEvsIf]
            rw [hrun]
            intro e he hinv
            rcases List.mem_append.mp he with he1 | he2
            · exact key1 e he1 hinv
            · simp at he2
              subst he2
              simp [isInvoke] at hinv
          | false =>
            have hw := parseArgs_writer_valid initState argv s (by simp [initState]) hp
            obtain ⟨text, hpd⟩ := print_document_some env.renderers
              (s.options, if s.files = [] then env.stdin else bytes) s.writer
              s.options s.width hw
            have hrun : mainRun argv env =
                { exitCode := 0,
                  events := Event.parserNew s.options :: (fevs ++ stdinEvsIf s env) ++
                    [Event.treeCreated, Event.parserFree] ++ flEvs ++
                    [Event.renderCall s.writer s.options s.width, Event.out text,
                     Event.treeDestroyed] } := by
              simp [mainRun, mainModel, List.range_zero, hp, hf, hl, hpd, stdinEvsIf]
            rw [hrun]
            intro e he hinv
            rcases List.mem_append.mp he with he1 | he2
            · exact key1 e he1 hinv
            · simp at he2
              rcases he2 with rfl | rfl | rfl <;> simp [isInvoke] at hinv
  · intro fevs bytes flEvs b hf hl j hj
    have hmem : Event.filterInvoked j [.docHandle, .str s.format] ∈ flEvs := by
      have := filterPhase_done_invokes env s.format s.luafiles 0 false b flEvs hl j hj
      simpa using this
    cases b with
    | true =>
      have hrun : mainRun argv env =
          { exitCode := 0,
            events := Event.parserNew s.options :: (fevs ++ stdinEvsIf s env) ++
              [Event.treeCreated, Event.parserFree] ++ flEvs ++
              [Event.treeDestroyed] } := by
        simp [mainRun, mainModel, List.range_zero, hp, hf, hl, stdinEvsIf]
      rw [hrun]
      simp [hmem]
    | false =>
      have hw := parseArgs_writer_valid initState argv s (by simp [initState]) hp
      obtain ⟨text, hpd⟩ := print_document_some env.renderers
        (s.options, if s.files = [] then env.stdin else bytes) s.writer
        s.options s.width hw
      have hrun : mainRun argv env =
          { exitCode := 0,
            events := Event.parserNew s.options :: (fevs ++ stdinEvsIf s env) ++
              [Event.treeCreated, Event.parserFree] ++ flEvs ++
              [Event.renderCall s.writer s.options s.width, Event.out text,
               Event.treeDestroyed] } := by
        simp [mainRun, mainModel, List.range_zero, hp, hf, hl, hpd, stdinEvsIf]
      rw [hrun]
      simp [hmem]
  · intro h1 h2
    have := parseArgs_format_preserved initState argv s h1 h2 hp
    simpa [initState] using this

/-- Witness for C6 at a concrete input: one filter, no `--to` flag. -/
theorem C6_two_argument_invocation_witness :
    Event.filterInvoked 0 [.docHandle,
        .str ({ initState with luafiles := ["f"] } : ParseState).format] ∈
      (mainRun ["--lua", "f"] env0).events ∧
    ({ initState with luafiles := ["f"] } : ParseState).format = "html" := by
  have h := C6_two_argument_invocation ["--lua", "f"] env0
    { initState with luafiles := ["f"] } (by decide)
  refine ⟨h.2.1 [] [] [.runtimeCreated 0,
      .filterInvoked 0 [.docHandle, .str "html"], .runtimeReleased 0] false
      (by decide) (by decide) 0 (by decide),
    h.2.2 (by simp) (by simp)⟩

lemma dropWhile_append_all (p : Event → Bool) (l1 l2 : List Event)
    (h : ∀ e ∈ l1, p e = true) :
    (l1 ++ l2).dropWhile p = l2.dropWhile p := by
  induction l1 with
  | nil => rfl
  | cons e t ih =>
    have he : p e = true := h e (List.mem_cons_self e t)
    have ht : ∀ x ∈ t, p x = true := fun x hx => h x (List.mem_cons_of_mem e hx)
    simp [List.dropWhile, he, ih ht]

lemma bnot_isTreeCreated_of_feed_err (e : Event)
    (h : isFeed e = true ∨ isErr e = true) : (!isTreeCreated e) = true := by
  rcases h with h | h <;> cases e <;> simp [isFeed, isErr] at h <;> rfl

/-- C7: with a non-empty positional file list each named file is fed to
the parser in the order given, in chunks of at most the buffer size
(each chunk nonempty, jointly the whole file content, the loop stopping
at the first short read before moving to the next file); with an empty
file list standard input is fed by the same chunked protocol; and every
feed event precedes the parser-finish event that creates the tree. -/
theorem C7_chunked_feed_protocol (argv : List String) (env : Env) (s : ParseState)
    (hp : parseArgs initState argv = .done s) :
    (∀ (fevs : List Event) (bytes : List Nat), feedFiles env s.files = .ok fevs bytes →
      (mainRun argv env).events.filter isFeed =
        (if s.files = [] then (readChunks env.stdin).map (fun c => Event.feed Src.stdin c)
         else s.files.bind (fun p => (readChunks (contentOf env p)).map
           (fun c => Event.feed (.file p) c)))) ∧
    (∀ content : List Nat, (readChunks content).join = content ∧
      ∀ c ∈ readChunks content, ¬c = [] ∧ c.length ≤ BUFSIZE) ∧
    ((mainRun argv env).events.dropWhile (fun e => !isTreeCreated e)).filter isFeed = [] := by
  have hmain : ∀ (fevs : List Event) (bytes : List Nat),
      feedFiles env s.files = .ok fevs bytes →
      ((mainRun argv env).events.filter isFeed =
        (if s.files = [] then (readChunks env.stdin).map (fun c => Event.feed Src.stdin c)
         else s.files.bind (fun p => (readChunks (contentOf env p)).map
           (fun c => Event.feed (.file p) c)))) ∧
      ((mainRun argv env).events.dropWhile (fun e => !isTreeCreated e)).filter isFeed = [] := by
    intro fevs bytes hf
    obtain ⟨hbind, hbytes⟩ := feedFiles_ok_events env s.files fevs bytes hf
    have hall_fevs : ∀ e ∈ fevs, isFeed e = true := by
      rw [hbind]
      intro e he
      simp at he
      obtain ⟨p, hp2, c, hc2, rfl⟩ := he
      rfl
    have hall_stdin : ∀ e ∈ stdinEvsIf s env, isFeed e = true := by
      unfold stdinEvsIf
      split
      · intro e he
        simp at he
        obtain ⟨c, _, rfl⟩ := he
        rfl
      · simp
    have hall : ∀ e ∈ fevs ++ stdinEvsIf s env, isFeed e = true := by
      intro e he
      rcases List.mem_append.mp he with h | h
      · exact hall_fevs e h
      · exact hall_stdin e h
    have hself : (fevs ++ stdinEvsIf s env).filter isFeed = fevs ++ stdinEvsIf s env :=
      List.filter_eq_self.mpr hall
    have hq1 : ∀ e ∈ Event.parserNew s.options :: (fevs ++ stdinEvsIf s env),
        (fun e => !isTreeCreated e) e = true := by
      intro e he
      rcases List.mem_cons.mp he with rfl | he2
      · rfl
      · rcases List.mem_append.mp he2 with h | h
        · exact bnot_isTreeCreated_of_feed_err e
            (feedFiles_events_shape env s.files e (by rw [hf]; exact h))
        · exact bnot_isTreeCreated_of_feed_err e (stdinEvsIf_shape s env e h)
    have hgoal : (if s.files = [] then
          (readChunks env.stdin).map (fun c => Event.feed Src.stdin c)
        else s.files.bind (fun p => (readChunks (contentOf env p)).map
          (fun c => Event.feed (.file p) c))) = fevs ++ stdinEvsIf s env := by
      by_cases hnil : s.files = []
      · simp [hnil, stdinEvsIf, hbind]
      · simp [hnil, stdinEvsIf, hbind]
    cases hl : filterPhase env s.format s.luafiles 0 false with
    | mk flEvs fres =>
      have hfl : flEvs.filter isFeed = [] := by
        have := filterPhase_filter_nil env s.format s.luafiles 0 false isFeed
          (fun _ => rfl) (fun _ => rfl) (fun _ => rfl) (fun _ _ => rfl)
        rw [hl] at this
        exact this
      have hflq : ∀ (post : List Event), (∀ e ∈ post, isFeed e = false) →
          ((Event.parserNew s.options :: (fevs ++ stdinEvsIf s env) ++
              [Event.treeCreated, Event.parserFree] ++ flEvs ++ post).filter isFeed =
            fevs ++ stdinEvsIf s env) ∧
          (((Event.parserNew s.options :: (fevs ++ stdinEvsIf s env) ++
              [Event.treeCreated, Event.parserFree] ++ flEvs ++ post).dropWhile
              (fun e => !isTreeCreated e)).filter isFeed = []) := by
        intro post hpost
        have hpostnil : post.filter isFeed = [] :=
          List.filter_eq_nil_iff.mpr (fun e he => by simp [hpost e he])
        constructor
        · simp only [List.filter_append, hfl, hpostnil, List.append_nil]
          simp [List.filter_cons, isFeed, hself]
        · rw [List.append_assoc, List.append_assoc,
            dropWhile_append_all _ _ _ hq1]
          simp only [List.cons_append, List.nil_append, List.dropWhile]
          simp [isTreeCreated, List.filter_append, hfl, hpostnil, isFeed]
      cases fres with
      | abort c =>
        have hrun : mainRun argv env =
            { exitCode := c,
              events := Event.parserNew s.options :: (fevs ++ stdinEvsIf s env) ++
                [Event.treeCreated, Event.parserFree] ++ flEvs } := by
          simp [mainRun, mainModel, List.range_zero, hp, hf, hl, stdinEvsIf]
        have h2 := hflq [] (by simp)
        rw [List.append_nil] at h2
        rw [hrun]
        exact ⟨h2.1.trans hgoal.symm, h2.2⟩
      | done sk =>
        cases sk with
        | true =>
          have hrun : mainRun argv env =
              { exitCode := 0,
                events := Event.parserNew s.options :: (fevs ++ stdinEvsIf s env) ++
                  [Event.treeCreated, Event.parserFree] ++ flEvs ++
                  [Event.treeDestroyed] } := by
            simp [mainRun, mainModel, List.range_zero, hp, hf, hl, stdinEvsIf]
          have h2 := hflq [Event.treeDestroyed]
            (by intro e he; simp at he; subst he; rfl)
          rw [hrun]
          exact ⟨h2.1.trans hgoal.symm, h2.2⟩
        | false =>
          have hw := parseArgs_writer_valid initState argv s (by simp [initState]) hp
          obtain ⟨text, hpd⟩ := print_document_some env.renderers
            (s.options, if s.files = [] then env.stdin else bytes) s.writer
            s.options s.width hw
          have hrun : mainRun argv env =
              { exitCode := 0,
                events := Event.parserNew s.options :: (fevs ++ stdinEvsIf s env) ++
                  [Event.treeCreated, Event.parserFree] ++ flEvs ++
                  [Event.renderCall s.writer s.options s.width, Event.out text,
                   Event.treeDestroyed] } := by
            simp [mainRun, mainModel, List.range_zero, hp, hf, hl, hpd, stdinEvsIf]
          have h2 := hflq
            [Event.renderCall s.writer s.options s.width, Event.out text,
             Event.treeDestroyed]
            (by intro e he; simp at he; rcases he with rfl | rfl | rfl <;> rfl)
          rw [hrun]
          exact ⟨h2.1.trans hgoal.symm, h2.2⟩
  refine ⟨fun fevs bytes hf => (hmain fevs bytes hf).1,
    fun content => ⟨readChunks_join content, readChunks_sizes content⟩, ?_⟩
  cases hfx : feedFiles env s.files with
  | fail fevs =>
    have hrun : mainRun argv env =
        { exitCode := 1, events := Event.parserNew s.options :: fevs } := by
      simp [mainRun, mainModel, List.range_zero, hp, hfx]
    have hfe : ∀ e ∈ fevs, isFeed e = true ∨ isErr e = true :=
      fun e he => feedFiles_events_shape env s.files e (by rw [hfx]; exact he)
    have hq : ∀ e ∈ Event.parserNew s.options :: fevs,
        (fun e => !isTreeCreated e) e = true := by
      intro e he
      rcases List.mem_cons.mp he with rfl | he2
      · rfl
      · exact bnot_isTreeCreated_of_feed_err e (hfe e he2)
    rw [hrun]
    have : (Event.parserNew s.options :: fevs).dropWhile (fun e => !isTreeCreated e) = [] := by
      rw [show Event.parserNew s.options :: fevs =
        (Event.parserNew s.options :: fevs) ++ [] from (List.append_nil _).symm,
        dropWhile_append_all _ _ _ hq]
      rfl
    simp [this]
  | ok fevs bytes => exact (hmain fevs bytes hfx).2

/-- World for the C7 witness: one file of three bytes. -/
def envC7 : Env :=
  { fs := fun _ => .ok [1, 2, 3], stdin := [10], filters := fun _ => fbOk,
    renderers := R0 }

/-- Witness for C7 at a concrete input. -/
theorem C7_chunked_feed_protocol_witness :
    (mainRun ["a.md"] envC7).events.filter isFeed =
      (if ({ initState with files := ["a.md"] } : ParseState).files = [] then
        (readChunks envC7.stdin).map (fun c => Event.feed Src.stdin c)
       else ({ initState with files := ["a.md"] } : ParseState).files.bind
         (fun p => (readChunks (contentOf envC7 p)).map
           (fun c => Event.feed (.file p) c))) ∧
    (readChunks [1, 2, 3]).join = [1, 2, 3] ∧
    ((mainRun ["a.md"] envC7).events.dropWhile (fun e => !isTreeCreated e)).filter
      isFeed = [] := by
  have h := C7_chunked_feed_protocol ["a.md"] envC7
    { initState with files := ["a.md"] } (by decide)
  exact ⟨h.1 [Event.feed (.file "a.md") [1, 2, 3]] [1, 2, 3] (by decide),
    (h.2.1 [1, 2, 3]).1, h.2.2⟩
